import Mathlib

/-!
Shallow embedding of the lasso-unpack bundle analyzer.

The embedded code is `lib/utils.js` (path decoding helpers and syntax-node
shape checks) together with the walker `parseLassoBundle` and its local
helpers `extractLiterals` / `extractContent`.  Syntax nodes produced by the
parser are modelled by the inductive `Node`; field probes such as
`node.callee` return `Option Node` to mirror JavaScript `undefined`.
JavaScript single-character `String.split`, first-occurrence
`String.replace`, `String.includes` and `String.slice` are modelled on
`List Char` (code points; the analyzed bundles are ASCII).
-/

namespace LassoUnpack

/-- JavaScript values that can sit in a `Literal` node. -/
inductive JSValue : Type where
  | str (s : String)
  | num (n : Int)
  | boolean (b : Bool)
  | null
deriving Repr, DecidableEq

/-- Acorn syntax nodes, restricted to the shapes the analyzer probes.
`block` stands for any statement / container node the base walker simply
recurses through (Program bodies, BlockStatement, ExpressionStatement). -/
inductive Node : Type where
  | literal (value : JSValue) (start stop : Nat)
  | identifier (name : String) (start stop : Nat)
  | memberExpr (obj property : Node) (start stop : Nat)
  | functionExpr (params : List Node) (body : Option Node) (start stop : Nat)
  | callExpr (callee : Node) (args : List Node) (start stop : Nat)
  | exprStmt (expr : Node) (start stop : Nat)
  | block (stmts : List Node) (start stop : Nat)

namespace Node

/-- The acorn `type` string of a node. -/
def type : Node → String
  | literal .. => "Literal"
  | identifier .. => "Identifier"
  | memberExpr .. => "MemberExpression"
  | functionExpr .. => "FunctionExpression"
  | callExpr .. => "CallExpression"
  | exprStmt .. => "ExpressionStatement"
  | block .. => "BlockStatement"

/-- Start offset of the node's source span. -/
def start : Node → Nat
  | literal _ s _ => s
  | identifier _ s _ => s
  | memberExpr _ _ s _ => s
  | functionExpr _ _ s _ => s
  | callExpr _ _ s _ => s
  | exprStmt _ s _ => s
  | block _ s _ => s

/-- End offset of the node's source span (`end` is a Lean keyword). -/
def stop : Node → Nat
  | literal _ _ e => e
  | identifier _ _ e => e
  | memberExpr _ _ _ e => e
  | functionExpr _ _ _ e => e
  | callExpr _ _ _ e => e
  | exprStmt _ _ e => e
  | block _ _ e => e

/-- The `callee` field: present only on call expressions. -/
def callee : Node → Option Node
  | callExpr c _ _ _ => some c
  | _ => none

/-- The `arguments` field: present only on call expressions. -/
def argumentList : Node → Option (List Node)
  | callExpr _ a _ _ => some a
  | _ => none

/-- The `value` field: present only on literals. -/
def value : Node → Option JSValue
  | literal v _ _ => some v
  | _ => none

/-- The `body` field of a function expression (acorn always provides one;
the option mirrors the JavaScript truthiness probe `node.body`). -/
def body : Node → Option Node
  | functionExpr _ b _ _ => b
  | _ => none

/-- The `property` field: present only on member expressions. -/
def property : Node → Option Node
  | memberExpr _ p _ _ => some p
  | _ => none

end Node

/-- One manifest record (`class Stats` in `lib/stats.js`).  All fields are
initialized to the empty string; `size` is modelled as `Int` because the
walker always overwrites it with a span-length number before the record is
pushed. -/
structure Stats where
  type : String := ""
  fileName : String := ""
  packageName : String := ""
  content : String := ""
  version : String := ""
  size : Int := 0
  path : String := ""
deriving Repr, DecidableEq, Inhabited

/-! JavaScript string primitives, modelled on `List Char`. -/

/-- JavaScript `String.prototype.split` with a one-character separator,
on code-point lists.  `[] ↦ [[]]`, matching `"".split(sep) === [""]`. -/
def splitChar (sep : Char) : List Char → List (List Char)
  | [] => [[]]
  | c :: rest =>
    let r := splitChar sep rest
    if c == sep then [] :: r
    else
      match r with
      | [] => [[c]]
      | h :: t => (c :: h) :: t

/-- JavaScript `s.split(sep)` for a one-character separator, as strings. -/
def jsSplit (s : String) (sep : Char) : List String :=
  (splitChar sep s.data).map List.asString

/-- Does the list start with the given pattern? -/
def listStartsWith : List Char → List Char → Bool
  | _, [] => true
  | [], _ :: _ => false
  | a :: as, b :: bs => a == b && listStartsWith as bs

/-- JavaScript `s.replace(pat, "")` with a plain-string pattern: removes the
first occurrence of `pat`, if any. -/
def jsRemoveFirstList (pat : List Char) : List Char → List Char
  | [] => []
  | c :: rest =>
    if listStartsWith (c :: rest) pat then List.drop pat.length (c :: rest)
    else c :: jsRemoveFirstList pat rest

/-- String wrapper for `jsRemoveFirstList`. -/
def jsRemoveFirst (s pat : String) : String :=
  (jsRemoveFirstList pat.data s.data).asString

/-- JavaScript `s.includes(c)` for a one-character needle. -/
def jsIncludesChar (s : String) (c : Char) : Bool :=
  s.data.any (fun a => a == c)

/-- JavaScript `s.slice(start, stop)` (offsets are code points here). -/
def jsSlice (s : String) (start stop : Nat) : String :=
  (((s.data).drop start).take (stop - start)).asString

/-- JavaScript `[..].join(sep)`. -/
def jsJoin (sep : String) : List String → String
  | [] => ""
  | [x] => x
  | x :: y :: t => x ++ sep ++ jsJoin sep (y :: t)

/-! The functions of `lib/utils.js`. -/

/-- Source: `isMemberExpression` — is the node a call whose callee is a
member expression? -/
def isMemberExpression (node : Option Node) : Bool :=
  match node with
  | none => false
  | some n =>
    match n.callee with
    | none => false
    | some c => c.type == "MemberExpression"

/-- Source: `getArguments` — the node's argument list if nonempty, else `[]`. -/
def getArguments (node : Option Node) : List Node :=
  match node with
  | none => []
  | some n =>
    match n.argumentList with
    | none => []
    | some args => if args.length > 0 then args else []

/-- Source: `validLiteral` — is the node a `Literal` with a string value? -/
def validLiteral (node : Option Node) : Bool :=
  match node with
  | none => false
  | some n =>
    n.type == "Literal" &&
      (match n.value with
       | some (JSValue.str _) => true
       | _ => false)

/-- The string value of a node that passed `validLiteral`. -/
def literalString (node : Option Node) : String :=
  match node with
  | some (Node.literal (JSValue.str s) _ _) => s
  | _ => ""

/-- Loop body of `validIndex`. -/
def validIndexGo : List String → Nat → Nat
  | [], _ => 0
  | s :: rest, i => if jsIncludesChar s '$' then i else validIndexGo rest (i + 1)

/-- Source: `validIndex` — the index of the first `/`-segment containing
`$`, or `0` when no segment does. -/
def validIndex (array : List String) : Nat :=
  validIndexGo array 0

/-- Source: `extractLiteralFromInstalled` — positional extraction for
`installed` (and, via `extractLiterals`, `builtin`) calls: argument 1 is
stored as `packageName`, argument 2 as `fileName`, argument 3 as `version`. -/
def extractLiteralFromInstalled (stats : Stats) (element : List Node) : Stats :=
  if element.length == 0 then stats
  else
    let s1 := if validLiteral element[0]? then
        { stats with packageName := literalString element[0]? } else stats
    let s2 := if validLiteral element[1]? then
        { s1 with fileName := literalString element[1]? } else s1
    let s3 := if validLiteral element[2]? then
        { s2 with version := literalString element[2]? } else s2
    s3

/-- Source: `extractLiteralFromDef` — split the path literal on `/`, locate
the first `$`-bearing segment, and decode package name, version and the
remaining-segments file name from it. -/
def extractLiteralFromDef (stats : Stats) (element : Option Node) : Stats :=
  if validLiteral element then
    let arrayLiteral := jsSplit (literalString element) '/'
    let length := arrayLiteral.length
    if length > 0 then
      let index := validIndex arrayLiteral
      let seg := arrayLiteral.getD index ""
      { stats with
        packageName := (jsSplit seg '$').headD "",
        version := (jsSplit seg '$').getD 1 "",
        fileName := jsJoin "/" (arrayLiteral.drop (index + 1)) }
    else stats
  else stats

/-- Source: `extractLiteralFromMain` — decode `main` / `remap` paths from
the leading segment (second segment when the path starts with `/`); the
file name is the path with the first `packageName + "/"` occurrence
removed.  A non-string truthy `value` would throw in JavaScript; the model
only proceeds on strings. -/
def extractLiteralFromMain (stats : Stats) (element : Option Node) : Stats :=
  match element with
  | none => stats
  | some el =>
    match el.value with
    | some (JSValue.str v) =>
      if v != "" then
        let arrayOfValues := jsSplit v '/'
        if arrayOfValues.length > 0 then
          let packageName :=
            if arrayOfValues.headD "" == "" then arrayOfValues.getD 1 ""
            else arrayOfValues.headD ""
          let fileName := jsRemoveFirst v (packageName ++ "/")
          { stats with
            packageName := (jsSplit packageName '$').headD "",
            version := (jsSplit packageName '$').getD 1 "",
            fileName := fileName }
        else stats
      else stats
    | _ => stats

/-- Source: `isValidFunctionExpression` — function expression with a body. -/
def isValidFunctionExpression (node : Option Node) : Bool :=
  match node with
  | none => false
  | some n =>
    n.type == "FunctionExpression" &&
      (match n.body with
       | some _ => true
       | none => false)

/-- Source: `isFunctionExpression` — is the node a call whose callee is
itself a function expression? -/
def isFunctionExpression (node : Option Node) : Bool :=
  match node with
  | none => false
  | some n =>
    match n.callee with
    | none => false
    | some c => c.type == "FunctionExpression"

/-! The walker module (`parseLassoBundle` and its local helpers). -/

/-- Source: local `extractLiterals` — dispatch on the record's `type`:
`installed` and `builtin` use the positional rule, `def` the `$`-segment
rule on argument 1, `main` and `remap` the leading-segment rule on
argument 1. -/
def extractLiterals (stats : Stats) (args : List Node) : Stats :=
  let s1 := if stats.type == "installed" || stats.type == "builtin" then
      extractLiteralFromInstalled stats args else stats
  let s2 := if s1.type == "def" then
      extractLiteralFromDef s1 args[0]? else s1
  let s3 := if s2.type == "main" || s2.type == "remap" then
      extractLiteralFromMain s2 args[0]? else s2
  s3

/-- Source: local `extractContent` — when the node is a function expression
with a body, store the verbatim source slice of the body's span. -/
def extractContent (fileContent : String) (stats : Stats) (node : Option Node) : Stats :=
  if isValidFunctionExpression node then
    match node with
    | some (Node.functionExpr _ (some body) _ _) =>
      { stats with content := jsSlice fileContent body.start body.stop }
    | _ => stats
  else stats

/-- The size assignment of the `CallExpression` visitor:
`if (node.start && node.end) stats.setSize(node.end - node.start) else
stats.setSize(0)`.  `node.start && node.end` is a JavaScript truthiness
test, so a zero offset takes the `setSize(0)` branch. -/
def nodeSize (node : Node) : Int :=
  if node.start != 0 && node.stop != 0 then (node.stop : Int) - (node.start : Int)
  else 0

/-- The `CallExpression` visitor body of `parseLassoBundle`: builds the one
record pushed for a visited call node. -/
def handleCall (fileContent : String) (node : Node) : Stats :=
  let s0 : Stats := {}
  let s1 := { s0 with size := nodeSize node }
  let s2 := if isFunctionExpression (some node) then
      { s1 with packageName := "module.js", fileName := "module.js", path := "/module.js" }
    else s1
  let s3 := if isMemberExpression (some node) then
      match node.callee with
      | some (Node.memberExpr _ (Node.identifier name _ _) _ _) => { s2 with type := name }
      | _ => s2
    else s2
  let args := getArguments (some node)
  let s4 := if args.length > 0 then extractLiterals s3 args else s3
  let s5 := if s4.type == "def" then extractContent fileContent s4 args[1]? else s4
  s5

mutual
/-- The `walk.recursive` traversal with the `CallExpression` override: on a
call expression the override runs (one record, no recursion into children);
on every other node the base walker recurses into the children. -/
def walkNode (src : String) : Node → List Stats
  | Node.callExpr c a s e => [handleCall src (Node.callExpr c a s e)]
  | Node.memberExpr o p _ _ => walkNode src o ++ walkNode src p
  | Node.functionExpr ps b _ _ => walkList src ps ++ walkOpt src b
  | Node.exprStmt e _ _ => walkNode src e
  | Node.block stmts _ _ => walkList src stmts
  | Node.literal _ _ _ => []
  | Node.identifier _ _ _ => []

/-- Traversal of an optional child node. -/
def walkOpt (src : String) : Option Node → List Stats
  | none => []
  | some n => walkNode src n

/-- Traversal of a list of child nodes, in source order. -/
def walkList (src : String) : List Node → List Stats
  | [] => []
  | n :: ns => walkNode src n ++ walkList src ns
end

/-- The parsed program: its top-level statement list (`ast.body`). -/
structure Program where
  body : List Node

/-- Source: `parseLassoBundle`, after parsing: an empty statement list
returns the string sentinel `"Empty File"`; otherwise the walk runs and the
accumulated record list is returned. -/
def parseLassoBundle (fileContent : String) (ast : Program) : Sum String (List Stats) :=
  if ast.body.length == 0 then Sum.inl "Empty File"
  else Sum.inr (walkList fileContent ast.body)

/-- Length of the returned manifest; `0` for the empty-file sentinel. -/
def manifestLength : Sum String (List Stats) → Nat
  | Sum.inl _ => 0
  | Sum.inr l => l.length

/-! Concrete syntax nodes used to evaluate the code at specific inputs. -/

/-- The call `mod.def("/@scope/name$version/sub/path", function(){...})`. -/
def c1Node : Node :=
  Node.callExpr (Node.memberExpr (Node.identifier "mod" 1 4) (Node.identifier "def" 5 8) 1 8)
    [Node.literal (JSValue.str "/@scope/name$version/sub/path") 9 40,
     Node.functionExpr [] (some (Node.block [] 50 60)) 42 60] 1 61

/-- The call `mod.installed("parent", "pkgName", "1.0.0")`. -/
def c2Node : Node :=
  Node.callExpr (Node.memberExpr (Node.identifier "mod" 1 4) (Node.identifier "installed" 5 14) 1 14)
    [Node.literal (JSValue.str "parent") 15 23,
     Node.literal (JSValue.str "pkgName") 25 34,
     Node.literal (JSValue.str "1.0.0") 36 43] 1 44

/-- A plain top-level call statement `f()` at offset `o`. -/
def plainCallStmt (o : Nat) : Node :=
  Node.exprStmt (Node.callExpr (Node.identifier "f" o (o + 1)) [] o (o + 3)) o (o + 4)

/-- A program with one `mod.def` registration call and ten plain calls
`f() .. f()`, each a top-level expression statement. -/
def c4Prog : Program :=
  { body :=
      Node.exprStmt (Node.callExpr
        (Node.memberExpr (Node.identifier "mod" 1 4) (Node.identifier "def" 5 8) 1 8)
        [Node.literal (JSValue.str "/p$1/i") 9 17] 1 18) 1 19 ::
      [plainCallStmt 20, plainCallStmt 25, plainCallStmt 30, plainCallStmt 35,
       plainCallStmt 40, plainCallStmt 45, plainCallStmt 50, plainCallStmt 55,
       plainCallStmt 60, plainCallStmt 65] }

/-- The call `foo()` written at the very beginning of the file: its call
node spans offsets 0 to 5. -/
def c6Node : Node := Node.callExpr (Node.identifier "foo" 0 3) [] 0 5

/-- The same call one character later (span 1 to 6). -/
def c6NodeShifted : Node := Node.callExpr (Node.identifier "foo" 1 4) [] 1 6

/-- The call `mod.builtin("/a$1/b", "t")`. -/
def c7Node : Node :=
  Node.callExpr (Node.memberExpr (Node.identifier "mod" 1 4) (Node.identifier "builtin" 5 12) 1 12)
    [Node.literal (JSValue.str "/a$1/b") 13 21, Node.literal (JSValue.str "t") 23 26] 1 27

/-- An immediately-invoked function expression `(function(){ ... })(x)`. -/
def c8Node : Node :=
  Node.callExpr (Node.functionExpr [] (some (Node.block [] 12 20)) 1 20)
    [Node.literal (JSValue.str "x") 22 25] 1 26

/-! General lemmas about the JavaScript string primitives. -/

/-- A list without the separator splits into the single segment it is. -/
theorem splitChar_of_no_sep (sep : Char) (l : List Char)
    (h : l.any (fun a => a == sep) = false) : splitChar sep l = [l] := by
  induction l with
  | nil => rfl
  | cons c rest ih =>
    rw [List.any_cons, Bool.or_eq_false_iff] at h
    rw [splitChar]
    simp [h.1, ih h.2]

/-- A string that splits on `$` into two segments contains a `$`. -/
theorem jsIncludesChar_of_split_pair (s x y : String) (h : jsSplit s '$' = [x, y]) :
    jsIncludesChar s '$' = true := by
  by_contra hc
  rw [Bool.not_eq_true] at hc
  unfold jsIncludesChar at hc
  rw [jsSplit, splitChar_of_no_sep '$' s.data hc] at h
  simp at h

/-- The empty string contains no `$`. -/
theorem jsIncludesChar_empty : jsIncludesChar "" '$' = false := rfl

/-- The `validIndex` loop returns `0` when no segment contains `$`. -/
theorem validIndexGo_eq_zero (xs : List String) (i : Nat)
    (h : ∀ s ∈ xs, jsIncludesChar s '$' = false) : validIndexGo xs i = 0 := by
  induction xs generalizing i with
  | nil => rfl
  | cons a t ih =>
    rw [validIndexGo]
    have ha := h a (by simp)
    simp only [ha, if_false]
    exact ih _ (fun s hs => h s (by simp [hs]))

/-! Field-preservation lemmas used when a syntax-node argument is left
abstract (so the node-shape tests do not reduce). -/

/-- `extractContent` never changes `packageName`. -/
theorem extractContent_packageName (src : String) (s : Stats) (n : Option Node) :
    (extractContent src s n).packageName = s.packageName := by
  unfold extractContent
  split
  · split <;> rfl
  · rfl

/-- `extractContent` never changes `version`. -/
theorem extractContent_version (src : String) (s : Stats) (n : Option Node) :
    (extractContent src s n).version = s.version := by
  unfold extractContent
  split
  · split <;> rfl
  · rfl

/-- `extractContent` never changes `fileName`. -/
theorem extractContent_fileName (src : String) (s : Stats) (n : Option Node) :
    (extractContent src s n).fileName = s.fileName := by
  unfold extractContent
  split
  · split <;> rfl
  · rfl

/-- `extractLiteralFromDef` never changes `content`. -/
theorem extractLiteralFromDef_content (s : Stats) (e : Option Node) :
    (extractLiteralFromDef s e).content = s.content := by
  unfold extractLiteralFromDef
  split
  · simp [apply_ite Stats.content]
  · rfl

/-- `extractLiteralFromDef` never changes `type`. -/
theorem extractLiteralFromDef_type (s : Stats) (e : Option Node) :
    (extractLiteralFromDef s e).type = s.type := by
  unfold extractLiteralFromDef
  split
  · simp [apply_ite Stats.type]
  · rfl

/-- Rebuilding a string from its character list is the identity. -/
theorem asString_data (s : String) : s.data.asString = s := rfl

/-- A split never produces the empty list of segments. -/
theorem splitChar_ne_nil (sep : Char) (l : List Char) : splitChar sep l ≠ [] := by
  cases l with
  | nil => simp [splitChar]
  | cons c rest =>
    rw [splitChar]
    split
    · simp
    · split <;> simp

/-- String-level version of `splitChar_ne_nil`. -/
theorem jsSplit_ne_nil (s : String) (sep : Char) : jsSplit s sep ≠ [] := by
  unfold jsSplit
  simp [splitChar_ne_nil]

/-- String append concatenates the underlying character lists. -/
theorem data_append (s t : String) : (s ++ t).data = s.data ++ t.data := rfl

/-- Any list starts with its own prefix. -/
theorem listStartsWith_append (xs ys : List Char) : listStartsWith (xs ++ ys) xs = true := by
  induction xs with
  | nil => cases ys <;> rfl
  | cons a t ih => simp [listStartsWith, ih]

/-- Removing the first occurrence of `pat` from `pat ++ ys` leaves `ys`. -/
theorem jsRemoveFirstList_self (pat ys : List Char) :
    jsRemoveFirstList pat (pat ++ ys) = ys := by
  cases pat with
  | nil =>
    cases ys with
    | nil => rfl
    | cons c rest => simp [jsRemoveFirstList, listStartsWith]
  | cons p pt =>
    rw [List.cons_append, jsRemoveFirstList]
    have hs : listStartsWith (p :: (pt ++ ys)) (p :: pt) = true := by
      simp [listStartsWith, listStartsWith_append]
    simp [hs, List.drop_left]

/-- A miss at the head steps `jsRemoveFirstList` past one character. -/
theorem jsRemoveFirstList_head_miss (pat : List Char) (c : Char) (rest : List Char)
    (h : listStartsWith (c :: rest) pat = false) :
    jsRemoveFirstList pat (c :: rest) = c :: jsRemoveFirstList pat rest := by
  simp [jsRemoveFirstList, h]

/-- Splitting `xs ++ sep :: ys` peels off the separator-free prefix `xs`. -/
theorem splitChar_append_sep (sep : Char) (xs ys : List Char)
    (h : (xs.any fun a => a == sep) = false) :
    splitChar sep (xs ++ sep :: ys) = xs :: splitChar sep ys := by
  induction xs with
  | nil =>
    rw [List.nil_append, splitChar]
    simp
  | cons c t ih =>
    rw [List.any_cons, Bool.or_eq_false_iff] at h
    rw [List.cons_append, splitChar]
    simp [h.1, ih h.2]

/-- `extractLiteralFromMain` never changes `type`. -/
theorem extractLiteralFromMain_type (s : Stats) (e : Option Node) :
    (extractLiteralFromMain s e).type = s.type := by
  rcases e with _ | el
  · rfl
  · cases el with
    | literal val o1 o2 =>
      cases val with
      | str v => simp [extractLiteralFromMain, Node.value, apply_ite Stats.type]
      | num n => rfl
      | boolean b => rfl
      | null => rfl
    | identifier name o1 o2 => rfl
    | memberExpr o p o1 o2 => rfl
    | functionExpr ps b o1 o2 => rfl
    | callExpr c a o1 o2 => rfl
    | exprStmt ex o1 o2 => rfl
    | block st o1 o2 => rfl

/-- The leading-segment rule of `extractLiteralFromMain`, characterized on
canonical paths `/nv/sub` where `nv` holds exactly one `$`: the decoded
`packageName` is `nv`'s text before the `$`, `version` the text after it,
and `fileName` the path with the first `nv ++ "/"` occurrence removed —
which keeps the leading slash: `"/" ++ sub`. -/
theorem extractLiteralFromMain_fields (v nv sub name ver : String) (o1 o2 : Nat)
    (h1 : v.data = '/' :: (nv.data ++ '/' :: sub.data))
    (h2 : (nv.data.any fun a => a == '/') = false)
    (h3 : (sub.data.any fun a => a == '/') = false)
    (h4 : jsSplit nv '$' = [name, ver]) (s : Stats) :
    extractLiteralFromMain s (some (Node.literal (JSValue.str v) o1 o2)) =
      { s with packageName := name, version := ver, fileName := "/" ++ sub } := by
  have hsplitv : jsSplit v '/' = ["", nv, sub] := by
    rw [jsSplit, h1, splitChar]
    simp only [beq_self_eq_true, if_true]
    rw [splitChar_append_sep '/' nv.data sub.data h2, splitChar_of_no_sep '/' sub.data h3]
    simp only [List.map_cons, List.map_nil, asString_data]
    rfl
  have hne : (v != "") = true := by
    rw [bne_iff_ne]
    intro e
    rw [e] at h1
    simp at h1
  have hfile : jsRemoveFirst v (nv ++ "/") = "/" ++ sub := by
    obtain ⟨c, nvt, hnvd⟩ : ∃ c t, nv.data = c :: t := by
      cases hd : nv.data with
      | nil =>
        rw [jsSplit, hd] at h4
        simp [splitChar] at h4
      | cons c t => exact ⟨c, t, rfl⟩
    have hc : (c == '/') = false := by
      rw [hnvd, List.any_cons, Bool.or_eq_false_iff] at h2
      exact h2.1
    have hmiss : listStartsWith ('/' :: (nv.data ++ '/' :: sub.data)) ((nv ++ "/").data) = false := by
      rw [data_append, hnvd]
      simp only [List.cons_append, listStartsWith]
      have hc2 : ('/' == c) = false := by
        rw [beq_eq_false_iff_ne] at hc ⊢
        exact fun e => hc e.symm
      simp [hc2]
    have hassoc : nv.data ++ '/' :: sub.data = ((nv ++ "/").data) ++ sub.data := by
      rw [data_append]
      simp
    rw [jsRemoveFirst, h1, jsRemoveFirstList_head_miss _ _ _ hmiss, hassoc,
      jsRemoveFirstList_self]
    rfl
  simp [extractLiteralFromMain, Node.value, hne, hsplitv, h4, hfile]

/-- A record whose `type` is empty passes `extractLiterals` unchanged. -/
theorem extractLiterals_of_type_empty (s : Stats) (args : List Node) (h : s.type = "") :
    extractLiterals s args = s := by
  obtain ⟨t, fn, pn, ct, v, sz, pth⟩ := s
  have h2 : t = "" := h
  subst h2
  rfl

/-! Claim theorems. -/

/-- C2, counterexample: on `mod.installed("parent", "pkgName", "1.0.0")` the
record's `packageName` is not `"pkgName"` (it is `"parent"`, the first
argument), so `installed` does not take `packageName` from argument 2. -/
theorem installed_packageName_not_second_arg :
    ¬ ((handleCall "" c2Node).packageName = "pkgName" ∧ (handleCall "" c2Node).fileName = "") := by
  decide

/-- C2, amended: an `installed` call with three string-literal arguments
yields `packageName` equal to the FIRST argument, `fileName` equal to the
SECOND argument, and `version` equal to the third argument. -/
theorem installed_record_fields (src : String) (obj : Node) (a1 a2 a3 : String)
    (o1 o2 o3 o4 o5 o6 o7 o8 cs ce : Nat) :
    let r := handleCall src (Node.callExpr
      (Node.memberExpr obj (Node.identifier "installed" o1 o2) o3 o4)
      [Node.literal (JSValue.str a1) o5 o6,
       Node.literal (JSValue.str a2) o7 o8,
       Node.literal (JSValue.str a3) o7 o8] cs ce)
    r.type = "installed" ∧ r.packageName = a1 ∧ r.fileName = a2 ∧ r.version = a3 :=
  ⟨rfl, rfl, rfl, rfl⟩

/-- C6, code evaluated at the failing input: the call `foo()` written at
offset 0 gets `size = 0` although its span length `end - start` is `5`; the
same call at offset 1 gets `size = 5`.  The guard `node.start && node.end`
treats the legitimate offset `0` as a missing field. -/
theorem size_zero_at_offset_zero :
    (handleCall "foo()" c6Node).size = 0 ∧ c6Node.stop - c6Node.start = 5 ∧
      (handleCall " foo()" c6NodeShifted).size = 5 := by
  decide

/-- C8, counterexample: the record for an immediately-invoked function
expression is not classified with verb `functionExpression`: its `type`
field stays empty, because `setType` runs only for member-expression
callees. -/
theorem iife_type_not_functionExpression :
    ¬ (handleCall "" c8Node).type = "functionExpression" := by
  decide

/-- C8, amended: a call whose callee is itself a function expression gets
the fixed synthetic identity `packageName = "module.js"`,
`path = "/module.js"` (and `fileName = "module.js"`), with no path
decoding; but its verb/`type` field remains the empty string — the code
never assigns the value `"functionExpression"`. -/
theorem iife_record_fields (src : String) (ps : List Node) (b : Option Node)
    (fs fe : Nat) (args : List Node) (cs ce : Nat) :
    let r := handleCall src (Node.callExpr (Node.functionExpr ps b fs fe) args cs ce)
    r.packageName = "module.js" ∧ r.path = "/module.js" ∧
      r.fileName = "module.js" ∧ r.type = "" := by
  by_cases ha : args.length > 0 <;>
    simp [handleCall, ha, isFunctionExpression, isMemberExpression, getArguments,
      Node.callee, Node.type, Node.argumentList,
      extractLiterals_of_type_empty, extractContent,
      (by decide : ("" : String) ≠ "def")]

/-- C9: an empty top-level statement list makes `parseLassoBundle` return
the sentinel string `"Empty File"`; a non-empty one makes it return the
manifest produced by the walk. -/
theorem empty_input_sentinel (src : String) (ast : Program) :
    (ast.body = [] → parseLassoBundle src ast = Sum.inl "Empty File") ∧
      (ast.body ≠ [] → parseLassoBundle src ast = Sum.inr (walkList src ast.body)) := by
  constructor
  · intro h
    simp [parseLassoBundle, h]
  · intro h
    simp [parseLassoBundle, h, List.length_eq_zero]

/-- C9, witness: both branches exercised at concrete inputs. -/
theorem empty_input_sentinel_witness :
    parseLassoBundle "" ⟨[]⟩ = Sum.inl "Empty File" ∧
      parseLassoBundle "foo()" ⟨[Node.exprStmt c6Node 0 6]⟩ =
        Sum.inr (walkList "foo()" [Node.exprStmt c6Node 0 6]) := by
  exact ⟨(empty_input_sentinel "" ⟨[]⟩).1 rfl,
    (empty_input_sentinel "foo()" ⟨[Node.exprStmt c6Node 0 6]⟩).2 (by simp)⟩

/-- C10: the `CallExpression` override never invokes the walk continuation,
so the walk of any call expression produces exactly the one record of that
call itself — whatever call expressions are nested in its callee or its
arguments contribute nothing. -/
theorem nested_calls_produce_no_records (src : String) (callee : Node)
    (args : List Node) (s e : Nat) :
    walkNode src (Node.callExpr callee args s e) =
        [handleCall src (Node.callExpr callee args s e)] ∧
      (walkNode src (Node.callExpr callee args s e)).length = 1 := by
  constructor <;> simp [walkNode]

/-- C1, counterexample: decoding
`mod.def("/@scope/name$version/sub/path", function(){...})` yields a record
whose `packageName` is not `"@scope/name"` — the scope prefix is dropped
(the decoder keeps only the `$`-segment's text before `$`). -/
theorem scoped_def_drops_scope :
    ¬ (handleCall "" c1Node).packageName = "@scope/name" := by
  decide

/-- C1, amended: for a def call on a scoped path of the form
`/@scope/name$version/sub/path` (five `/`-segments: an empty one, a
`$`-free scope segment, a `$`-bearing segment and two tail segments), the
decoder yields `packageName = name` — the `$`-segment's text before `$`,
with the scope prefix dropped, not `@scope/name` — together with
`version = version` and `fileName = "sub/path"`. -/
theorem scoped_def_decoding (src : String) (obj a2 : Node)
    (p scope nv sub path name version : String) (o1 o2 cs ce : Nat)
    (hsplit : jsSplit p '/' = ["", scope, nv, sub, path])
    (hscope : jsIncludesChar scope '$' = false)
    (hnv : jsSplit nv '$' = [name, version]) :
    let r := handleCall src (Node.callExpr
      (Node.memberExpr obj (Node.identifier "def" o1 o2) o1 o2)
      [Node.literal (JSValue.str p) o1 o2, a2] cs ce)
    r.packageName = name ∧ r.version = version ∧ r.fileName = sub ++ "/" ++ path := by
  have hinc : jsIncludesChar nv '$' = true := jsIncludesChar_of_split_pair nv name version hnv
  simp [handleCall, isFunctionExpression, isMemberExpression, getArguments,
    Node.callee, Node.type, Node.argumentList, Node.value,
    extractLiterals, extractLiteralFromDef, validLiteral, literalString,
    hsplit, validIndex, validIndexGo, jsIncludesChar_empty, hscope, hinc, hnv,
    jsJoin, extractContent_packageName, extractContent_version, extractContent_fileName,
    (by decide : ("def" : String) ≠ "installed"),
    (by decide : ("def" : String) ≠ "builtin"),
    (by decide : ("def" : String) ≠ "main"),
    (by decide : ("def" : String) ≠ "remap")]

/-- C1, witness: the amended decoding at the concrete scoped path. -/
theorem scoped_def_decoding_witness :
    (handleCall "" c1Node).packageName = "name" ∧
      (handleCall "" c1Node).version = "version" ∧
      (handleCall "" c1Node).fileName = "sub" ++ "/" ++ "path" :=
  scoped_def_decoding "" (Node.identifier "mod" 1 4)
    (Node.functionExpr [] (some (Node.block [] 50 60)) 42 60)
    "/@scope/name$version/sub/path" "@scope" "name$version" "sub" "path"
    "name" "version" 9 40 1 61 (by decide) (by decide) (by decide)

/-- C3: a def call whose path literal has no `$` in any `/`-segment decodes
to an empty `version` and a `packageName` equal to the segment at index 0
of the `/`-split (for a path with a leading `/` that segment is empty). -/
theorem unversioned_def_decoding (src : String) (obj a2 : Node) (p : String)
    (o1 o2 cs ce : Nat)
    (h : ∀ s ∈ jsSplit p '/', jsIncludesChar s '$' = false) :
    let r := handleCall src (Node.callExpr
      (Node.memberExpr obj (Node.identifier "def" o1 o2) o1 o2)
      [Node.literal (JSValue.str p) o1 o2, a2] cs ce)
    r.version = "" ∧ r.packageName = (jsSplit p '/').getD 0 "" := by
  obtain ⟨s0, tl, heq⟩ := List.exists_cons_of_ne_nil (jsSplit_ne_nil p '/')
  have h0 : jsIncludesChar s0 '$' = false :=
    h s0 (by rw [heq]; exact List.mem_cons_self _ _)
  have hvi : validIndexGo (s0 :: tl) 0 = 0 :=
    validIndexGo_eq_zero _ 0 (fun s hs => h s (by rw [heq]; exact hs))
  have hs0 : jsSplit s0 '$' = [s0] := by
    rw [jsSplit, splitChar_of_no_sep '$' s0.data h0]
    simp [asString_data]
  simp [handleCall, isFunctionExpression, isMemberExpression, getArguments,
    Node.callee, Node.type, Node.argumentList, Node.value,
    extractLiterals, extractLiteralFromDef, validLiteral, literalString,
    heq, validIndex, hvi, hs0,
    extractContent_packageName, extractContent_version,
    (by decide : ("def" : String) ≠ "installed"),
    (by decide : ("def" : String) ≠ "builtin"),
    (by decide : ("def" : String) ≠ "main"),
    (by decide : ("def" : String) ≠ "remap")]

/-- C3, witness: the unversioned decoding at the concrete path `foo/bar`. -/
theorem unversioned_def_decoding_witness :
    (handleCall "" (Node.callExpr
      (Node.memberExpr (Node.identifier "mod" 1 4) (Node.identifier "def" 5 8) 5 8)
      [Node.literal (JSValue.str "foo/bar") 9 18,
       Node.identifier "g" 20 21] 1 22)).version = "" ∧
      (handleCall "" (Node.callExpr
        (Node.memberExpr (Node.identifier "mod" 1 4) (Node.identifier "def" 5 8) 5 8)
        [Node.literal (JSValue.str "foo/bar") 9 18,
         Node.identifier "g" 20 21] 1 22)).packageName = (jsSplit "foo/bar" '/').getD 0 "" :=
  unversioned_def_decoding "" (Node.identifier "mod" 1 4) (Node.identifier "g" 20 21)
    "foo/bar" 9 18 1 22 (by decide)

/-- C4, counterexample: a program with one recognized registration call and
ten plain unrelated calls does not yield a one-record manifest — the
visitor pushes a record for every visited call expression. -/
theorem unrecognized_calls_add_records :
    ¬ manifestLength (parseLassoBundle "" c4Prog) = 1 := by
  simp [c4Prog, plainCallStmt, parseLassoBundle, walkList, walkNode, manifestLength]

/-- C4, amended: with one recognized `def` call and ten plain unrelated
calls the manifest holds eleven records — one per visited call expression,
recognized or not — and the recognized call's record (with
`type = "def"`) is first, in source order. -/
theorem one_def_ten_plain_eleven_records :
    manifestLength (parseLassoBundle "" c4Prog) = 11 ∧
      ((walkList "" c4Prog.body).headD {}).type = "def" := by
  constructor
  · simp [c4Prog, plainCallStmt, parseLassoBundle, walkList, walkNode, manifestLength]
  · simp [c4Prog, plainCallStmt, walkList, walkNode]
    rfl

/-- C5: for a def call, when argument 2 is a function expression with a
body the record's `content` is the verbatim source slice of the body's
span; when argument 2 is missing or not a function expression the
`content` is the empty string (and the embedding is total — nothing is
thrown). -/
theorem def_content_is_source_slice (src : String) (obj : Node) (args : List Node)
    (o1 o2 cs ce : Nat) :
    let r := handleCall src (Node.callExpr
      (Node.memberExpr obj (Node.identifier "def" o1 o2) o1 o2) args cs ce)
    (∀ ps b fs fe, args[1]? = some (Node.functionExpr ps (some b) fs fe) →
        r.content = jsSlice src b.start b.stop) ∧
      (isValidFunctionExpression args[1]? = false → r.content = "") := by
  constructor
  · intro ps b fs fe hargs
    rcases args with _ | ⟨a0, _ | ⟨a1, rest⟩⟩
    · simp at hargs
    · simp at hargs
    · have h1 : a1 = Node.functionExpr ps (some b) fs fe := by simpa using hargs
      subst h1
      simp [handleCall, isFunctionExpression, isMemberExpression, getArguments,
        Node.callee, Node.type, Node.argumentList, Node.body,
        extractLiterals, extractContent, isValidFunctionExpression,
        extractLiteralFromDef_type, extractLiteralFromDef_content,
        (by decide : ("def" : String) ≠ "installed"),
        (by decide : ("def" : String) ≠ "builtin"),
        (by decide : ("def" : String) ≠ "main"),
        (by decide : ("def" : String) ≠ "remap")]
  · intro hval
    rcases args with _ | ⟨a0, rest⟩
    · rfl
    · simp at hval
      simp [handleCall, isFunctionExpression, isMemberExpression, getArguments,
        Node.callee, Node.type, Node.argumentList,
        extractLiterals, extractContent, hval,
        extractLiteralFromDef_type, extractLiteralFromDef_content,
        (by decide : ("def" : String) ≠ "installed"),
        (by decide : ("def" : String) ≠ "builtin"),
        (by decide : ("def" : String) ≠ "main"),
        (by decide : ("def" : String) ≠ "remap")]

/-- C5, witness: both branches at concrete def calls — a factory with body
span 5..15 over a 20-character source, and a def call with no second
argument. -/
theorem def_content_is_source_slice_witness :
    (handleCall "abcdefghijklmnopqrst" (Node.callExpr
      (Node.memberExpr (Node.identifier "m" 0 1) (Node.identifier "def" 2 5) 2 5)
      [Node.literal (JSValue.str "/p$1/i") 6 14,
       Node.functionExpr [] (some (Node.block [] 5 15)) 2 18] 0 20)).content =
        jsSlice "abcdefghijklmnopqrst" 5 15 ∧
      (handleCall "" (Node.callExpr
        (Node.memberExpr (Node.identifier "m" 0 1) (Node.identifier "def" 2 5) 2 5)
        [Node.literal (JSValue.str "/p$1/i") 6 14] 0 20)).content = "" :=
  ⟨(def_content_is_source_slice "abcdefghijklmnopqrst" (Node.identifier "m" 0 1)
      [Node.literal (JSValue.str "/p$1/i") 6 14,
       Node.functionExpr [] (some (Node.block [] 5 15)) 2 18] 2 5 0 20).1
      [] (Node.block [] 5 15) 2 18 rfl,
    (def_content_is_source_slice "" (Node.identifier "m" 0 1)
      [Node.literal (JSValue.str "/p$1/i") 6 14] 2 5 0 20).2 rfl⟩

/-- C7, counterexample: on `mod.builtin("/a$1/b", "t")` the record's
`packageName` is not `"a"` — the def segment-scanning rule would give
`"a"`, but `builtin` calls are routed through the positional `installed`
extraction, which stores the whole literal `"/a$1/b"`. -/
theorem builtin_not_def_rule : ¬ (handleCall "" c7Node).packageName = "a" := by
  decide

/-- C7, amended: `builtin` calls are decoded positionally like `installed`
(`packageName` is argument 1's literal text, `fileName` argument 2's,
`version` left empty for a two-argument call); `main` and `remap` calls
are decoded by the leading-segment rule of `extractLiteralFromMain` — for
a canonical path `/nv/sub` with `nv = name$ver` they yield
`packageName = name`, `version = ver`, and `fileName = "/" ++ sub` (the
leading slash is kept, unlike the def rule) — not by the def
segment-scanning rule. -/
theorem main_remap_builtin_decoding :
    (∀ (src : String) (obj : Node) (a1 a2 : String) (o1 o2 o3 o4 o5 o6 o7 o8 cs ce : Nat),
      let r := handleCall src (Node.callExpr
        (Node.memberExpr obj (Node.identifier "builtin" o1 o2) o3 o4)
        [Node.literal (JSValue.str a1) o5 o6, Node.literal (JSValue.str a2) o7 o8] cs ce)
      r.packageName = a1 ∧ r.fileName = a2 ∧ r.version = "") ∧
    (∀ (src : String) (obj a2node : Node) (vb : String)
        (v nv sub name ver : String) (o1 o2 o3 o4 o5 o6 cs ce : Nat),
      vb = "main" ∨ vb = "remap" →
      v.data = '/' :: (nv.data ++ '/' :: sub.data) →
      (nv.data.any fun a => a == '/') = false →
      (sub.data.any fun a => a == '/') = false →
      jsSplit nv '$' = [name, ver] →
      let r := handleCall src (Node.callExpr
        (Node.memberExpr obj (Node.identifier vb o1 o2) o3 o4)
        [Node.literal (JSValue.str v) o5 o6, a2node] cs ce)
      r.packageName = name ∧ r.version = ver ∧ r.fileName = "/" ++ sub) := by
  constructor
  · intro src obj a1 a2 o1 o2 o3 o4 o5 o6 o7 o8 cs ce
    exact ⟨rfl, rfl, rfl⟩
  · intro src obj a2node vb v nv sub name ver o1 o2 o3 o4 o5 o6 cs ce hvb h1 h2 h3 h4
    rcases hvb with h | h <;> subst h <;>
      simp [handleCall, isFunctionExpression, isMemberExpression, getArguments,
        Node.callee, Node.type, Node.argumentList,
        extractLiterals, extractContent,
        extractLiteralFromMain_fields v nv sub name ver o5 o6 h1 h2 h3 h4,
        (by decide : ("main" : String) ≠ "installed"),
        (by decide : ("main" : String) ≠ "builtin"),
        (by decide : ("main" : String) ≠ "def"),
        (by decide : ("remap" : String) ≠ "installed"),
        (by decide : ("remap" : String) ≠ "builtin"),
        (by decide : ("remap" : String) ≠ "def")]

/-- C7, witness: the amended decoding at `mod.builtin("/a$1/b", "t")` and
`mod.main("/foo$1.0.0/lib", "x")`. -/
theorem main_remap_builtin_decoding_witness :
    ((handleCall "" c7Node).packageName = "/a$1/b" ∧
        (handleCall "" c7Node).fileName = "t" ∧ (handleCall "" c7Node).version = "") ∧
      ((handleCall "" (Node.callExpr
          (Node.memberExpr (Node.identifier "mod" 1 4) (Node.identifier "main" 5 9) 1 9)
          [Node.literal (JSValue.str "/foo$1.0.0/lib") 10 26,
           Node.literal (JSValue.str "x") 28 31] 1 32)).packageName = "foo" ∧
        (handleCall "" (Node.callExpr
          (Node.memberExpr (Node.identifier "mod" 1 4) (Node.identifier "main" 5 9) 1 9)
          [Node.literal (JSValue.str "/foo$1.0.0/lib") 10 26,
           Node.literal (JSValue.str "x") 28 31] 1 32)).version = "1.0.0" ∧
        (handleCall "" (Node.callExpr
          (Node.memberExpr (Node.identifier "mod" 1 4) (Node.identifier "main" 5 9) 1 9)
          [Node.literal (JSValue.str "/foo$1.0.0/lib") 10 26,
           Node.literal (JSValue.str "x") 28 31] 1 32)).fileName = "/" ++ "lib") :=
  ⟨main_remap_builtin_decoding.1 "" (Node.identifier "mod" 1 4) "/a$1/b" "t"
      5 12 1 12 13 21 23 26 1 27,
    main_remap_builtin_decoding.2 "" (Node.identifier "mod" 1 4)
      (Node.literal (JSValue.str "x") 28 31) "main" "/foo$1.0.0/lib" "foo$1.0.0" "lib"
      "foo" "1.0.0" 5 9 1 9 10 26 1 32 (Or.inl rfl) (by decide) (by decide) (by decide)
      (by decide)⟩

end LassoUnpack
